import Mathlib

/-!
# Supersonic: playlists page search and now-playing card

A shallow embedding of `ui/browsing/playlistspage.go` and
`ui/widgets/nowplayingcard.go`.

Conventions of the embedding.

* A Go `string` is a Lean `String` (valid UTF-8 text); a Go slice is a `List`
  (a nil slice and an empty slice are both `[]`); a `[]*subsonic.Playlist`
  holds non-nil pointers and is a `List Playlist`.
* Pointers to collaborators (`*controller.Controller`,
  `*backend.ServerManager`, an `image.Image`) are opaque handles.
* A method with a pointer receiver is a function from the old state to the new
  state.  Calls into collaborators that leave no mark on the fields (a server
  request, a log line, a widget refresh) are recorded in a ghost `trace`.
* `go a.load(b)` starts a goroutine: the constructor returns the page together
  with the argument `b` of the load it has started, and `load` is applied to
  the page at the moment the goroutine runs, with the outcome of its
  `GetPlaylists` request as an argument.
* `strings.ToLower` maps every rune through `unicode.ToLower`; the rune map is
  the parameter `lower`, and `Char.toLower` is its restriction to ASCII.
* `strings.Contains` looks for a run of bytes; between two valid UTF-8 texts a
  run of bytes is found exactly where the run of runes is, so the search is
  done on the runes.
* The error branch of `load` only logs, and `load` then carries on with the
  slice returned by the request; the embedding does the same.
-/

namespace Supersonic

/-! ## Strings -/

/-- Go `strings.ToLower`: every rune of `s` mapped through the rune map. -/
def ToLower (lower : Char → Char) (s : String) : String :=
  String.mk (s.data.map lower)

/-- Go `strings.HasPrefix` on rune sequences. -/
def hasPrefixChars : List Char → List Char → Bool
  | _, [] => true
  | [], _ :: _ => false
  | c :: cs, d :: ds => c == d && hasPrefixChars cs ds

/-- Search for `sub` at every offset of `s`, left to right. -/
def containsChars : List Char → List Char → Bool
  | [], sub => hasPrefixChars [] sub
  | c :: cs, sub => hasPrefixChars (c :: cs) sub || containsChars cs sub

/-- Go `strings.Contains(s, substr)`. -/
def Contains (s substr : String) : Bool :=
  containsChars s.data substr.data

/-! ## Data model -/

/-- The fields of `subsonic.Playlist` that this package reads. -/
structure Playlist where
  ID : String
  Name : String
  Comment : String
  Owner : String
  SongCount : Int
  deriving DecidableEq, Repr

/-- Calls into collaborators, recorded in program order. -/
inductive Effect where
  | getPlaylists
  | logPrintf (msg : String)
  | listRefresh
  | cardRefresh
  deriving DecidableEq, Repr

/-- The `widget.Entry` of a searcher. -/
structure Entry where
  Text : String
  deriving DecidableEq, Repr

/-- Modelled from the spec: `widgets.Searcher` is not among the sources; the
page uses its `Entry` and sets its `OnSearched` callback to `onSearched`. -/
structure Searcher where
  Entry : Entry
  deriving DecidableEq, Repr

/-- The `PlaylistList` widget: the rows it shows. -/
structure PlaylistList where
  Playlists : List Playlist
  deriving DecidableEq, Repr

/-- The `PlaylistsPage` widget. -/
structure PlaylistsPage where
  contr : Nat
  sm : Nat
  playlists : List Playlist
  searcher : Searcher
  list : PlaylistList
  trace : List Effect
  deriving DecidableEq, Repr

/-- The `savedPlaylistsPage` record. -/
structure savedPlaylistsPage where
  contr : Nat
  sm : Nat
  searchText : String
  deriving DecidableEq, Repr

/-- Outcome of `a.sm.Server.GetPlaylists(nil)`: the slice and the error. -/
structure FetchResult where
  playlists : List Playlist
  err : Option String
  deriving DecidableEq, Repr

/-! ## Operations of the playlists page -/

/-- The loop of `sharedutil.FilterSlice`: append every element passing `test`. -/
def filterLoop {α : Type} (test : α → Bool) : List α → List α → List α
  | result, [] => result
  | result, s :: ss => filterLoop test (if test s then result ++ [s] else result) ss

/-- Modelled from the spec: `sharedutil.FilterSlice` is not among the sources;
it is the standard order-preserving filter, a loop over the slice that appends
the elements passing `test` to an initially empty result. -/
def FilterSlice {α : Type} (ss : List α) (test : α → Bool) : List α :=
  filterLoop test [] ss

/-- The function literal passed to `FilterSlice` in `onSearched`. -/
def searchTest (lower : Char → Char) (query : String) (p : Playlist) : Bool :=
  let qLower := ToLower lower query
  Contains (ToLower lower p.Name) qLower ||
    Contains (ToLower lower p.Comment) qLower ||
    Contains (ToLower lower p.Owner) qLower

/-- The constructor `NewPlaylistList`: no rows yet. -/
def NewPlaylistList : PlaylistList :=
  { Playlists := [] }

/-- Modelled from the spec: `widgets.NewSearcher` is not among the sources;
a new searcher has an empty entry. -/
def NewSearcher : Searcher :=
  { Entry := { Text := "" } }

/-- The method `PlaylistsPage.onSearched`. -/
def onSearched (lower : Char → Char) (a : PlaylistsPage) (query : String) : PlaylistsPage :=
  let a1 : PlaylistsPage :=
    if query = "" then
      { a with list := { a.list with Playlists := a.playlists } }
    else
      let result := FilterSlice a.playlists (searchTest lower query)
      { a with list := { a.list with Playlists := result } }
  { a1 with trace := a1.trace ++ [Effect.listRefresh] }

/-- The method `PlaylistsPage.load`, run with the outcome of its `GetPlaylists` request. -/
def load (lower : Char → Char) (a : PlaylistsPage) (fetched : FetchResult)
    (searchOnLoad : Bool) : PlaylistsPage :=
  let playlists := fetched.playlists
  let err := fetched.err
  let a0 : PlaylistsPage := { a with trace := a.trace ++ [Effect.getPlaylists] }
  let a1 : PlaylistsPage :=
    match err with
    | some e => { a0 with trace := a0.trace ++ [Effect.logPrintf e] }
    | none => a0
  let a2 : PlaylistsPage := { a1 with playlists := playlists }
  if searchOnLoad then
    onSearched lower a2 a2.searcher.Entry.Text
  else
    { a2 with list := { a2.list with Playlists := playlists },
              trace := a2.trace ++ [Effect.listRefresh] }

/-- The function `newPlaylistsPage`: the new page, and the argument of the
`load` it starts in a goroutine. -/
def newPlaylistsPage (contr sm : Nat) (searchText : String) : PlaylistsPage × Bool :=
  let a : PlaylistsPage :=
    { contr := contr, sm := sm, playlists := [],
      searcher := NewSearcher, list := NewPlaylistList, trace := [] }
  let a1 : PlaylistsPage :=
    { a with searcher := { a.searcher with Entry := { a.searcher.Entry with Text := searchText } } }
  (a1, decide (searchText ≠ ""))

/-- The exported `NewPlaylistsPage`. -/
def NewPlaylistsPage (contr sm : Nat) : PlaylistsPage × Bool :=
  newPlaylistsPage contr sm ""

/-- The method `PlaylistsPage.Reload`: the page is untouched, a `load(false)` is started. -/
def Reload (a : PlaylistsPage) : PlaylistsPage × Bool :=
  (a, false)

/-- The method `PlaylistsPage.Save`. -/
def Save (a : PlaylistsPage) : savedPlaylistsPage :=
  { contr := a.contr, sm := a.sm, searchText := a.searcher.Entry.Text }

/-- The method `savedPlaylistsPage.Restore`. -/
def Restore (s : savedPlaylistsPage) : PlaylistsPage × Bool :=
  newPlaylistsPage s.contr s.sm s.searchText

/-- The two playlists of the spec's example scenarios. -/
def exampleSnapshot : List Playlist :=
  [ { ID := "1", Name := "Road Trip", Comment := "Summer songs", Owner := "alice", SongCount := 12 },
    { ID := "2", Name := "Chill", Comment := "", Owner := "bob", SongCount := 3 } ]

/-- A page whose snapshot is the example and that shows nothing yet. -/
def examplePage : PlaylistsPage :=
  { contr := 0, sm := 0, playlists := exampleSnapshot,
    searcher := NewSearcher, list := NewPlaylistList, trace := [] }

/-! ## Runs of the page -/

/-- What can happen to a page: a started load runs (with the outcome of its
request and its `searchOnLoad` argument), the searcher calls `OnSearched`, or
the user edits the text of the search entry. -/
inductive Op where
  | loadDone (fetched : FetchResult) (searchOnLoad : Bool)
  | searched (query : String)
  | entryEdited (text : String)
  deriving DecidableEq, Repr

/-- One operation applied to a page. -/
def step (lower : Char → Char) (a : PlaylistsPage) : Op → PlaylistsPage
  | Op.loadDone fetched searchOnLoad => load lower a fetched searchOnLoad
  | Op.searched query => onSearched lower a query
  | Op.entryEdited text =>
      { a with searcher := { a.searcher with Entry := { a.searcher.Entry with Text := text } } }

/-- A finite sequence of operations applied to a page, first to last. -/
def run (lower : Char → Char) (a : PlaylistsPage) (ops : List Op) : PlaylistsPage :=
  ops.foldl (step lower) a

/-- Number of `GetPlaylists` requests a page has made. -/
def getPlaylistsCalls (a : PlaylistsPage) : Nat :=
  a.trace.count Effect.getPlaylists

/-! ## What the spec says a match is -/

/-- The text `sub` occurs in `s` as a contiguous run of characters. -/
def IsSubstring (sub s : String) : Prop :=
  ∃ pre suf : List Char, s.data = pre ++ sub.data ++ suf

/-- The spec's membership rule: the lower-cased query is a substring of the
lower-cased name, or of the lower-cased comment, or of the lower-cased owner. -/
def SpecMatch (lower : Char → Char) (q : String) (p : Playlist) : Prop :=
  IsSubstring (ToLower lower q) (ToLower lower p.Name) ∨
  IsSubstring (ToLower lower q) (ToLower lower p.Comment) ∨
  IsSubstring (ToLower lower q) (ToLower lower p.Owner)

/-! ## The now-playing card -/

/-- The type `fyne.TextWrap`. -/
inductive TextWrap where
  | TextWrapOff
  | TextTruncate
  | TextWrapBreak
  | TextWrapWord
  deriving DecidableEq, Repr

/-- The type `canvas.ImageFill`. -/
inductive ImageFill where
  | ImageFillStretch
  | ImageFillContain
  | ImageFillOriginal
  deriving DecidableEq, Repr

/-- A `widget.Label`. -/
structure Label where
  Text : String
  Wrapping : TextWrap
  Bold : Bool
  deriving DecidableEq, Repr

/-- Modelled from the spec: `widgets.CustomHyperlink` is not among the sources;
it is a link with a text, the `Hidden` flag of its base widget, and an
`OnTapped` handler (an opaque handle, absent when nil). -/
structure CustomHyperlink where
  Text : String
  Hidden : Bool
  OnTapped : Option Nat
  deriving DecidableEq, Repr

/-- A `canvas.Image`: the image shown (absent when nil), its minimum size and
fill mode. -/
structure CanvasImage where
  Image : Option Nat
  MinSize : Nat × Nat
  FillMode : ImageFill
  deriving DecidableEq, Repr

/-- The `NowPlayingCard` widget. -/
structure NowPlayingCard where
  trackName : Label
  artistName : CustomHyperlink
  albumName : CustomHyperlink
  cover : CanvasImage
  trace : List Effect
  deriving DecidableEq, Repr

/-- The constructor `widget.NewLabel`. -/
def NewLabel (text : String) : Label :=
  { Text := text, Wrapping := TextWrap.TextWrapOff, Bold := false }

/-- Modelled from the spec: `widgets.NewCustomHyperlink` is not among the
sources; a new link has no text, is shown, and has no handler. -/
def NewCustomHyperlink : CustomHyperlink :=
  { Text := "", Hidden := false, OnTapped := none }

/-- Modelled from the spec: `CustomHyperlink.SetText` is not among the sources;
it replaces the text of the link. -/
def CustomHyperlink.SetText (c : CustomHyperlink) (text : String) : CustomHyperlink :=
  { c with Text := text }

/-- The constructor `NewNowPlayingCard`. -/
def NewNowPlayingCard : NowPlayingCard :=
  let n : NowPlayingCard :=
    { trackName := NewLabel "",
      artistName := NewCustomHyperlink,
      albumName := NewCustomHyperlink,
      cover := { Image := none, MinSize := (0, 0), FillMode := ImageFill.ImageFillStretch },
      trace := [] }
  let n1 : NowPlayingCard := { n with artistName := { n.artistName with Hidden := true } }
  let n2 : NowPlayingCard := { n1 with albumName := { n1.albumName with Hidden := true } }
  let n3 : NowPlayingCard := { n2 with trackName := { n2.trackName with Wrapping := TextWrap.TextTruncate } }
  let n4 : NowPlayingCard := { n3 with trackName := { n3.trackName with Bold := true } }
  let n5 : NowPlayingCard := { n4 with cover := { n4.cover with MinSize := (85, 85) } }
  { n5 with cover := { n5.cover with FillMode := ImageFill.ImageFillContain } }

/-- The method `NowPlayingCard.Update`. -/
def NowPlayingCard.Update (n : NowPlayingCard) (track artist album : String)
    (cover : Option Nat) : NowPlayingCard :=
  let n1 : NowPlayingCard := { n with trackName := { n.trackName with Text := track } }
  let n2 : NowPlayingCard := { n1 with artistName := n1.artistName.SetText artist }
  let n3 : NowPlayingCard := { n2 with artistName := { n2.artistName with Hidden := decide (artist = "") } }
  let n4 : NowPlayingCard := { n3 with albumName := n3.albumName.SetText album }
  let n5 : NowPlayingCard := { n4 with albumName := { n4.albumName with Hidden := decide (album = "") } }
  let n6 : NowPlayingCard := { n5 with cover := { n5.cover with Image := cover } }
  { n6 with trace := n6.trace ++ [Effect.cardRefresh] }

/-- The method `NowPlayingCard.OnArtistNameTapped`. -/
def NowPlayingCard.OnArtistNameTapped (n : NowPlayingCard) (f : Option Nat) : NowPlayingCard :=
  { n with artistName := { n.artistName with OnTapped := f } }

/-- The method `NowPlayingCard.OnAlbumNameTapped`. -/
def NowPlayingCard.OnAlbumNameTapped (n : NowPlayingCard) (f : Option Nat) : NowPlayingCard :=
  { n with albumName := { n.albumName with OnTapped := f } }

/-! ## Strings: the search agrees with substring containment -/

theorem hasPrefixChars_iff (s sub : List Char) :
    hasPrefixChars s sub = true ↔ ∃ suf, s = sub ++ suf := by
  induction sub generalizing s with
  | nil => cases s <;> simp [hasPrefixChars]
  | cons d ds ih =>
    cases s with
    | nil => simp [hasPrefixChars]
    | cons c cs =>
      simp only [hasPrefixChars, Bool.and_eq_true, beq_iff_eq, ih, List.cons_append,
        List.cons.injEq]
      constructor
      · rintro ⟨rfl, suf, rfl⟩
        exact ⟨suf, rfl, rfl⟩
      · rintro ⟨suf, rfl, rfl⟩
        exact ⟨rfl, suf, rfl⟩

theorem containsChars_iff (s sub : List Char) :
    containsChars s sub = true ↔ ∃ pre suf, s = pre ++ sub ++ suf := by
  induction s with
  | nil =>
    simp only [containsChars, hasPrefixChars_iff]
    constructor
    · rintro ⟨suf, h⟩
      exact ⟨[], suf, by simpa using h⟩
    · rintro ⟨pre, suf, h⟩
      have h1 : pre = [] ∧ sub = [] ∧ suf = [] := by simpa [eq_comm] using h
      obtain ⟨rfl, rfl, rfl⟩ := h1
      exact ⟨[], rfl⟩
  | cons c cs ih =>
    simp only [containsChars, Bool.or_eq_true, hasPrefixChars_iff, ih]
    constructor
    · rintro (⟨suf, h⟩ | ⟨pre, suf, h⟩)
      · exact ⟨[], suf, by simpa using h⟩
      · exact ⟨c :: pre, suf, by simp [h]⟩
    · rintro ⟨pre, suf, h⟩
      cases pre with
      | nil => exact Or.inl ⟨suf, by simpa using h⟩
      | cons e pre =>
        simp only [List.cons_append, List.cons.injEq] at h
        exact Or.inr ⟨pre, suf, h.2⟩

theorem Contains_iff (s sub : String) : Contains s sub = true ↔ IsSubstring sub s := by
  simp [Contains, IsSubstring, containsChars_iff]

theorem searchTest_iff (lower : Char → Char) (q : String) (p : Playlist) :
    searchTest lower q p = true ↔ SpecMatch lower q p := by
  simp [searchTest, SpecMatch, Contains_iff, or_assoc]

theorem filterLoop_eq {α : Type} (test : α → Bool) (ss result : List α) :
    filterLoop test result ss = result ++ ss.filter test := by
  induction ss generalizing result with
  | nil => simp [filterLoop]
  | cons s ss ih =>
    simp only [filterLoop, ih, List.filter_cons]
    split <;> simp

theorem FilterSlice_eq_filter {α : Type} (ss : List α) (test : α → Bool) :
    FilterSlice ss test = ss.filter test := by
  simp [FilterSlice, filterLoop_eq]

theorem sublist_eq_filter_of_count {α : Type} [DecidableEq α] (f : α → Bool) :
    ∀ (S R : List α), R.Sublist S →
      (∀ p, (f p = true → R.count p = S.count p) ∧ (f p = false → R.count p = 0)) →
      R = S.filter f := by
  intro S
  induction S with
  | nil =>
    intro R hsub _
    simpa using hsub
  | cons x S ih =>
    intro R hsub hcount
    cases hsub with
    | cons _ h =>
      cases hfx : f x with
      | true =>
        have h1 := (hcount x).1 hfx
        have h2 := h.count_le x
        simp at h1
        omega
      | false =>
        rw [List.filter_cons_of_neg (by simp [hfx])]
        refine ih R h (fun p => ⟨fun hp => ?_, (hcount p).2⟩)
        have hne : x ≠ p := by
          rintro rfl
          simp [hfx] at hp
        have h1 := (hcount p).1 hp
        rw [List.count_cons_of_ne hne.symm] at h1
        exact h1
    | cons₂ _ h =>
      rename_i R'
      cases hfx : f x with
      | false =>
        have h1 := (hcount x).2 hfx
        simp at h1
      | true =>
        rw [List.filter_cons_of_pos (by simp [hfx])]
        congr 1
        refine ih R' h (fun p => ⟨fun hp => ?_, fun hp => ?_⟩)
        · have h1 := (hcount p).1 hp
          simp only [List.count_cons] at h1
          omega
        · have h1 := (hcount p).2 hp
          simp only [List.count_cons] at h1
          omega

theorem onSearched_shown (lower : Char → Char) (a : PlaylistsPage) (q : String) :
    (onSearched lower a q).list.Playlists =
      if q = "" then a.playlists else a.playlists.filter (searchTest lower q) := by
  unfold onSearched
  split <;> simp [FilterSlice_eq_filter]

theorem onSearched_frame (lower : Char → Char) (a : PlaylistsPage) (q : String) :
    (onSearched lower a q).playlists = a.playlists ∧
    (onSearched lower a q).contr = a.contr ∧
    (onSearched lower a q).sm = a.sm ∧
    (onSearched lower a q).searcher = a.searcher ∧
    (onSearched lower a q).trace = a.trace ++ [Effect.listRefresh] := by
  unfold onSearched
  split <;> simp

theorem load_snapshot (lower : Char → Char) (a : PlaylistsPage) (fetched : FetchResult)
    (searchOnLoad : Bool) :
    (load lower a fetched searchOnLoad).playlists = fetched.playlists := by
  unfold load
  cases searchOnLoad <;> simp [(onSearched_frame _ _ _).1]

theorem load_searcher (lower : Char → Char) (a : PlaylistsPage) (fetched : FetchResult)
    (searchOnLoad : Bool) :
    (load lower a fetched searchOnLoad).searcher = a.searcher := by
  unfold load
  cases searchOnLoad <;> cases fetched.err <;> simp [(onSearched_frame _ _ _).2.2.2.1]

theorem load_shown (lower : Char → Char) (a : PlaylistsPage) (fetched : FetchResult)
    (searchOnLoad : Bool) :
    (load lower a fetched searchOnLoad).list.Playlists =
      if searchOnLoad = true ∧ a.searcher.Entry.Text ≠ "" then
        fetched.playlists.filter (searchTest lower a.searcher.Entry.Text)
      else fetched.playlists := by
  unfold load
  cases searchOnLoad <;> cases fetched.err <;>
    by_cases ht : a.searcher.Entry.Text = "" <;> simp [onSearched_shown, ht]

theorem step_shown_sublist (lower : Char → Char) (a : PlaylistsPage) (op : Op)
    (h : a.list.Playlists.Sublist a.playlists) :
    (step lower a op).list.Playlists.Sublist (step lower a op).playlists := by
  cases op with
  | loadDone fetched searchOnLoad =>
    simp only [step, load_snapshot, load_shown]
    split
    · exact List.filter_sublist _
    · exact List.Sublist.refl _
  | searched query =>
    simp only [step, onSearched_shown, (onSearched_frame _ _ _).1]
    split
    · exact List.Sublist.refl _
    · exact List.filter_sublist _
  | entryEdited text => simpa [step] using h

theorem run_shown_sublist (lower : Char → Char) (ops : List Op) :
    ∀ a : PlaylistsPage, a.list.Playlists.Sublist a.playlists →
      (run lower a ops).list.Playlists.Sublist (run lower a ops).playlists := by
  induction ops with
  | nil => intro a h; simpa [run] using h
  | cons op ops ih =>
    intro a h
    have := ih (step lower a op) (step_shown_sublist lower a op h)
    simpa [run] using this

theorem onSearched_forgets (lower : Char → Char) (qs : List String) :
    ∀ a : PlaylistsPage,
      (qs.foldl (onSearched lower) a).playlists = a.playlists ∧
      getPlaylistsCalls (qs.foldl (onSearched lower) a) = getPlaylistsCalls a := by
  induction qs with
  | nil => intro a; simp
  | cons q qs ih =>
    intro a
    have h := ih (onSearched lower a q)
    simp only [List.foldl_cons]
    refine ⟨h.1.trans (onSearched_frame _ _ _).1, h.2.trans ?_⟩
    simp [getPlaylistsCalls, (onSearched_frame lower a q).2.2.2.2]

/-! ## Search -/

/-- C1: for a non-empty query the displayed list is exactly the playlists of
the snapshot that match the spec's rule (lower-cased query a substring of the
lower-cased name, comment or owner), in the snapshot's order and as often as
in the snapshot; it is the only such list; playlists that agree on name,
comment and owner are treated alike; and on the spec's two-playlist example
"road" shows the first playlist, "bob" the second, "xyz" nothing. -/
theorem C1_onSearched_filter_correct :
    (∀ (lower : Char → Char) (a : PlaylistsPage) (q : String), q ≠ "" →
      (onSearched lower a q).list.Playlists.Sublist a.playlists ∧
      (∀ p, p ∈ (onSearched lower a q).list.Playlists ↔ p ∈ a.playlists ∧ SpecMatch lower q p) ∧
      (∀ p, (SpecMatch lower q p →
              (onSearched lower a q).list.Playlists.count p = a.playlists.count p) ∧
            (¬ SpecMatch lower q p → (onSearched lower a q).list.Playlists.count p = 0)) ∧
      (∀ R : List Playlist, R.Sublist a.playlists →
        (∀ p, (SpecMatch lower q p → R.count p = a.playlists.count p) ∧
              (¬ SpecMatch lower q p → R.count p = 0)) →
        R = (onSearched lower a q).list.Playlists) ∧
      (∀ p p' : Playlist, p.Name = p'.Name → p.Comment = p'.Comment → p.Owner = p'.Owner →
        (p ∈ (onSearched lower { a with playlists := [p] } q).list.Playlists ↔
          p' ∈ (onSearched lower { a with playlists := [p'] } q).list.Playlists))) ∧
    (onSearched Char.toLower examplePage "road").list.Playlists =
      [{ ID := "1", Name := "Road Trip", Comment := "Summer songs", Owner := "alice",
         SongCount := 12 }] ∧
    (onSearched Char.toLower examplePage "bob").list.Playlists =
      [{ ID := "2", Name := "Chill", Comment := "", Owner := "bob", SongCount := 3 }] ∧
    (onSearched Char.toLower examplePage "xyz").list.Playlists = [] := by
  refine ⟨?_, by decide, by decide, by decide⟩
  intro lower a q hq
  have hcount : ∀ p, (searchTest lower q p = true →
        (a.playlists.filter (searchTest lower q)).count p = a.playlists.count p) ∧
      (searchTest lower q p = false → (a.playlists.filter (searchTest lower q)).count p = 0) := by
    intro p
    constructor
    · intro hp
      rw [List.count_filter hp]
    · intro hp
      rw [List.count_eq_zero]
      intro hmem
      have := (List.mem_filter.mp hmem).2
      simp [hp] at this
  have hshown : ∀ b : PlaylistsPage, (onSearched lower b q).list.Playlists =
      b.playlists.filter (searchTest lower q) := by
    intro b
    rw [onSearched_shown, if_neg hq]
  rw [hshown a]
  refine ⟨List.filter_sublist _, ?_, ?_, ?_, ?_⟩
  · intro p
    rw [List.mem_filter, searchTest_iff]
  · intro p
    refine ⟨fun hp => (hcount p).1 ((searchTest_iff lower q p).mpr hp), fun hp => (hcount p).2 ?_⟩
    cases h : searchTest lower q p with
    | false => rfl
    | true => exact absurd ((searchTest_iff lower q p).mp h) hp
  · intro R hsub hR
    refine sublist_eq_filter_of_count (searchTest lower q) a.playlists R hsub (fun p => ⟨?_, ?_⟩)
    · intro hp
      exact (hR p).1 ((searchTest_iff lower q p).mp hp)
    · intro hp
      refine (hR p).2 (fun hm => ?_)
      rw [(searchTest_iff lower q p).mpr hm] at hp
      exact Bool.noConfusion hp
  · intro p p' hn hc ho
    rw [hshown, hshown]
    simp [searchTest, hn, hc, ho]

/-- C1, applied to the spec's example: the query "road" is not empty, the
playlists shown for it form a subsequence of the example snapshot, and the one
playlist shown is "Road Trip". -/
theorem C1_onSearched_filter_correct_witness :
    "road" ≠ "" ∧
    (onSearched Char.toLower examplePage "road").list.Playlists.Sublist examplePage.playlists ∧
    (∀ p, p ∈ (onSearched Char.toLower examplePage "road").list.Playlists ↔
      p ∈ examplePage.playlists ∧ SpecMatch Char.toLower "road" p) :=
  ⟨by decide,
   (C1_onSearched_filter_correct.1 Char.toLower examplePage "road" (by decide)).1,
   (C1_onSearched_filter_correct.1 Char.toLower examplePage "road" (by decide)).2.1⟩

/-- C2: after `onSearched("")` the displayed list is the snapshot itself: the
same elements in the same order, hence of the same length. -/
theorem C2_onSearched_empty_query_identity (lower : Char → Char) (a : PlaylistsPage) :
    (onSearched lower a "").list.Playlists = a.playlists ∧
    (onSearched lower a "").list.Playlists.length = a.playlists.length := by
  have h : (onSearched lower a "").list.Playlists = a.playlists := by
    rw [onSearched_shown, if_pos rfl]
  exact ⟨h, by rw [h]⟩

/-- C6: `onSearched` leaves the snapshot, the controller, the server manager
and the searcher as they were, makes no `GetPlaylists` request (its only call
is the refresh of the list), and what it displays does not depend on the
queries searched before it on the same snapshot. -/
theorem C6_onSearched_read_only (lower : Char → Char) (a : PlaylistsPage) (q : String) :
    (onSearched lower a q).playlists = a.playlists ∧
    getPlaylistsCalls (onSearched lower a q) = getPlaylistsCalls a ∧
    (onSearched lower a q).trace = a.trace ++ [Effect.listRefresh] ∧
    (onSearched lower a q).contr = a.contr ∧
    (onSearched lower a q).sm = a.sm ∧
    (onSearched lower a q).searcher = a.searcher ∧
    (∀ qs : List String,
      (qs.foldl (onSearched lower) a).playlists = a.playlists ∧
      getPlaylistsCalls (qs.foldl (onSearched lower) a) = getPlaylistsCalls a ∧
      (onSearched lower (qs.foldl (onSearched lower) a) q).list =
        (onSearched lower a q).list) := by
  obtain ⟨h1, h2, h3, h4, h5⟩ := onSearched_frame lower a q
  refine ⟨h1, ?_, h5, h2, h3, h4, ?_⟩
  · simp [getPlaylistsCalls, h5]
  · intro qs
    obtain ⟨k1, k2⟩ := onSearched_forgets lower qs a
    refine ⟨k1, k2, ?_⟩
    have e : ∀ b c : PlaylistsPage, b.playlists = c.playlists →
        (onSearched lower b q).list = (onSearched lower c q).list := by
      intro b c hbc
      unfold onSearched
      split <;> simp [hbc]
    exact e _ _ k1

/-! ## Loading -/

/-- C3: a failed fetch does replace the snapshot.  On the example page, whose
snapshot holds two playlists, a `load` whose request fails (nil slice, non-nil
error) leaves an empty snapshot and an empty displayed list, for either value
of `searchOnLoad`; in general the snapshot after `load` is the slice returned
by the request, whether or not the error is nil. -/
theorem C3_load_failed_fetch_replaces_snapshot :
    examplePage.playlists ≠ [] ∧
    (load Char.toLower examplePage { playlists := [], err := some "connection refused" }
      false).playlists = [] ∧
    (load Char.toLower examplePage { playlists := [], err := some "connection refused" }
      true).playlists = [] ∧
    (load Char.toLower examplePage { playlists := [], err := some "connection refused" }
      false).list.Playlists = [] ∧
    (∀ (lower : Char → Char) (a : PlaylistsPage) (fetched : FetchResult) (searchOnLoad : Bool),
      (load lower a fetched searchOnLoad).playlists = fetched.playlists) := by
  refine ⟨by decide, by decide, by decide, by decide, ?_⟩
  intro lower a fetched searchOnLoad
  exact load_snapshot lower a fetched searchOnLoad

/-- C4: in every state reached from a freshly constructed page (any search
text) by any finite sequence of completed loads (any outcome, either value of
`searchOnLoad`), searches and edits of the search entry, the displayed list is
a subsequence of the snapshot, in the snapshot's order. -/
theorem C4_shown_is_subsequence_of_snapshot (lower : Char → Char) (contr sm : Nat)
    (searchText : String) (ops : List Op) :
    (newPlaylistsPage contr sm searchText).1.playlists = [] ∧
    (newPlaylistsPage contr sm searchText).1.list.Playlists = [] ∧
    (run lower (newPlaylistsPage contr sm searchText).1 ops).list.Playlists.Sublist
      (run lower (newPlaylistsPage contr sm searchText).1 ops).playlists := by
  refine ⟨rfl, rfl, ?_⟩
  apply run_shown_sublist
  simp [newPlaylistsPage, NewPlaylistList]

/-- C5: `newPlaylistsPage(t)` returns a page with empty snapshot and search
text `t` and starts `load(t != "")`.  When that load completes with a
successful fetch of `L`, on whatever page `a` it then finds, the snapshot is
`L`; if `t` is non-empty and the entry still holds `t`, the displayed list is
what `onSearched(t)` shows over `L`, the matching playlists of `L`; if `t` is
empty, as with `NewPlaylistsPage`, the displayed list is `L`. -/
theorem C5_load_completion_on_creation (lower : Char → Char) (contr sm : Nat) (t : String)
    (L : List Playlist) (a : PlaylistsPage) :
    (newPlaylistsPage contr sm t).1.playlists = [] ∧
    (newPlaylistsPage contr sm t).1.searcher.Entry.Text = t ∧
    (newPlaylistsPage contr sm t).2 = decide (t ≠ "") ∧
    (load lower a { playlists := L, err := none } (newPlaylistsPage contr sm t).2).playlists = L ∧
    (t ≠ "" → a.searcher.Entry.Text = t →
      (load lower a { playlists := L, err := none } (newPlaylistsPage contr sm t).2).list.Playlists
          = (onSearched lower { a with playlists := L } t).list.Playlists ∧
      (load lower a { playlists := L, err := none } (newPlaylistsPage contr sm t).2).list.Playlists
          = L.filter (searchTest lower t)) ∧
    (t = "" →
      (load lower a { playlists := L, err := none } (newPlaylistsPage contr sm t).2).list.Playlists
        = L) ∧
    (load lower a { playlists := L, err := none } (NewPlaylistsPage contr sm).2).list.Playlists
      = L := by
  refine ⟨rfl, rfl, rfl, load_snapshot _ _ _ _, ?_, ?_, ?_⟩
  · intro ht hat
    rw [load_shown, onSearched_shown]
    simp [newPlaylistsPage, ht, hat]
  · intro ht
    rw [load_shown]
    simp [newPlaylistsPage, ht]
  · rw [load_shown]
    simp [NewPlaylistsPage, newPlaylistsPage]

/-- C5, applied to a page created with the search text "road" whose first load
fetches the example snapshot: the page shows "Road Trip" only. -/
theorem C5_load_completion_on_creation_witness :
    "road" ≠ "" ∧
    (newPlaylistsPage 0 0 "road").1.searcher.Entry.Text = "road" ∧
    (load Char.toLower (newPlaylistsPage 0 0 "road").1
        { playlists := exampleSnapshot, err := none } (newPlaylistsPage 0 0 "road").2).list.Playlists
      = exampleSnapshot.filter (searchTest Char.toLower "road") ∧
    exampleSnapshot.filter (searchTest Char.toLower "road") = exampleSnapshot.take 1 :=
  ⟨by decide, rfl,
   ((C5_load_completion_on_creation Char.toLower 0 0 "road" exampleSnapshot
      (newPlaylistsPage 0 0 "road").1).2.2.2.2.1 (by decide) rfl).2,
   by decide⟩


/-- C7 fails as stated: when the load of the second `Reload` completes first
(fetching the second example playlist) and the load of the first `Reload`
completes after it (fetching the first example playlist), the final snapshot
is the first call's result and not the second call's. -/
theorem C7_out_of_order_counterexample :
    (load Char.toLower
        (load Char.toLower examplePage
          { playlists := exampleSnapshot.drop 1, err := none } (Reload examplePage).2)
        { playlists := exampleSnapshot.take 1, err := none } (Reload examplePage).2).playlists
      = exampleSnapshot.take 1 ∧
    (load Char.toLower
        (load Char.toLower examplePage
          { playlists := exampleSnapshot.drop 1, err := none } (Reload examplePage).2)
        { playlists := exampleSnapshot.take 1, err := none } (Reload examplePage).2).playlists
      ≠ exampleSnapshot.drop 1 := by
  refine ⟨by decide, by decide⟩

/-- C7, amended: when the load of the second `Reload` completes first with
result `R2` and the load of the first `Reload` completes after it with result
`R1`, the final snapshot and the final displayed list are `R1`, the result of
the load that completed last; the snapshot in between was `R2`. -/
theorem C7_out_of_order_last_completion_wins (lower : Char → Char) (a : PlaylistsPage)
    (R1 R2 : List Playlist) :
    (load lower a { playlists := R2, err := none } (Reload a).2).playlists = R2 ∧
    (load lower
        (load lower a { playlists := R2, err := none } (Reload a).2)
        { playlists := R1, err := none } (Reload a).2).playlists = R1 ∧
    (load lower
        (load lower a { playlists := R2, err := none } (Reload a).2)
        { playlists := R1, err := none } (Reload a).2).list.Playlists = R1 := by
  refine ⟨load_snapshot _ _ _ _, load_snapshot _ _ _ _, ?_⟩
  rw [load_shown]
  simp [Reload]

/-- C8: `Reload` leaves the page as it is and starts `load(false)`; when that
load completes with a successful fetch of `L`, the snapshot and the displayed
list are both `L` and the search entry keeps its text, whatever that text is.
In particular a page whose entry holds "road" then shows the example's
"Chill" playlist, whose name, comment and owner do not match "road". -/
theorem C8_reload_shows_full_list :
    (∀ (lower : Char → Char) (a : PlaylistsPage) (L : List Playlist),
      (Reload a).1 = a ∧ (Reload a).2 = false ∧
      (load lower (Reload a).1 { playlists := L, err := none } (Reload a).2).playlists = L ∧
      (load lower (Reload a).1 { playlists := L, err := none } (Reload a).2).list.Playlists = L ∧
      (load lower (Reload a).1 { playlists := L, err := none } (Reload a).2).searcher.Entry.Text
        = a.searcher.Entry.Text) ∧
    (∃ (a : PlaylistsPage) (L : List Playlist) (p : Playlist),
      a.searcher.Entry.Text = "road" ∧ a.searcher.Entry.Text ≠ "" ∧
      (load Char.toLower (Reload a).1 { playlists := L, err := none }
          (Reload a).2).searcher.Entry.Text = "road" ∧
      p ∈ (load Char.toLower (Reload a).1 { playlists := L, err := none }
          (Reload a).2).list.Playlists ∧
      searchTest Char.toLower "road" p = false ∧
      ¬ SpecMatch Char.toLower "road" p) := by
  constructor
  · intro lower a L
    refine ⟨rfl, rfl, load_snapshot _ _ _ _, ?_, ?_⟩
    · rw [load_shown]
      simp [Reload]
    · rw [load_searcher]
      rfl
  · refine ⟨(newPlaylistsPage 0 0 "road").1, exampleSnapshot,
      { ID := "2", Name := "Chill", Comment := "", Owner := "bob", SongCount := 3 },
      rfl, by decide, by decide, by decide, by decide, ?_⟩
    rw [← searchTest_iff]
    decide

/-! ## Save and restore -/

/-- C9: the page returned by `Save().Restore()` has the search text the page
had at `Save()`, the same controller and server manager, an empty snapshot,
and starts its load with `searchOnLoad = (t != "")`; when that load completes
on the restored page with a successful fetch of `L`, the page shows the
playlists of `L` matching `t` if `t` is non-empty and `L` in full if `t` is
empty. -/
theorem C9_save_restore_keeps_search_text (lower : Char → Char) (a : PlaylistsPage)
    (L : List Playlist) :
    (Save a).searchText = a.searcher.Entry.Text ∧
    (Restore (Save a)).1.searcher.Entry.Text = a.searcher.Entry.Text ∧
    (Restore (Save a)).1.contr = a.contr ∧
    (Restore (Save a)).1.sm = a.sm ∧
    (Restore (Save a)).1.playlists = [] ∧
    (Restore (Save a)).2 = decide (a.searcher.Entry.Text ≠ "") ∧
    (load lower (Restore (Save a)).1 { playlists := L, err := none }
      (Restore (Save a)).2).playlists = L ∧
    (a.searcher.Entry.Text ≠ "" →
      (load lower (Restore (Save a)).1 { playlists := L, err := none }
          (Restore (Save a)).2).list.Playlists
        = L.filter (searchTest lower a.searcher.Entry.Text) ∧
      (onSearched lower { (Restore (Save a)).1 with playlists := L }
          a.searcher.Entry.Text).list.Playlists
        = L.filter (searchTest lower a.searcher.Entry.Text) ∧
      ∀ p, p ∈ (load lower (Restore (Save a)).1 { playlists := L, err := none }
            (Restore (Save a)).2).list.Playlists ↔
          p ∈ L ∧ SpecMatch lower a.searcher.Entry.Text p) ∧
    (a.searcher.Entry.Text = "" →
      (load lower (Restore (Save a)).1 { playlists := L, err := none }
          (Restore (Save a)).2).list.Playlists = L) := by
  refine ⟨rfl, rfl, rfl, rfl, rfl, rfl, load_snapshot _ _ _ _, ?_, ?_⟩
  · intro ht
    have h1 : (load lower (Restore (Save a)).1 { playlists := L, err := none }
        (Restore (Save a)).2).list.Playlists
          = L.filter (searchTest lower a.searcher.Entry.Text) := by
      rw [load_shown]
      simp [Restore, Save, newPlaylistsPage, ht]
    refine ⟨h1, ?_, ?_⟩
    · rw [onSearched_shown, if_neg ht]
    · intro p
      rw [h1, List.mem_filter, searchTest_iff]
  · intro ht
    rw [load_shown]
    simp [Restore, Save, newPlaylistsPage, ht]

/-- C9, applied to a page whose entry holds "bob": the restored page, once its
load has fetched the example snapshot, shows the playlist owned by bob. -/
theorem C9_save_restore_keeps_search_text_witness :
    (newPlaylistsPage 7 9 "bob").1.searcher.Entry.Text ≠ "" ∧
    (load Char.toLower (Restore (Save (newPlaylistsPage 7 9 "bob").1)).1
        { playlists := exampleSnapshot, err := none }
        (Restore (Save (newPlaylistsPage 7 9 "bob").1)).2).list.Playlists
      = exampleSnapshot.filter
          (searchTest Char.toLower (newPlaylistsPage 7 9 "bob").1.searcher.Entry.Text) ∧
    exampleSnapshot.filter
        (searchTest Char.toLower (newPlaylistsPage 7 9 "bob").1.searcher.Entry.Text)
      = exampleSnapshot.drop 1 :=
  ⟨by decide,
   ((C9_save_restore_keeps_search_text Char.toLower (newPlaylistsPage 7 9 "bob").1
      exampleSnapshot).2.2.2.2.2.2.2.1 (by decide)).1,
   by decide⟩

/-! ## The now-playing card -/

/-- C10: after `Update(track, artist, album, cover)` the track label shows
`track`, the artist link shows `artist` and is hidden exactly when `artist` is
empty, the album link shows `album` and is hidden exactly when `album` is
empty, and the cover image is `cover`; two cards updated with the same
arguments show the same, whatever they showed before; and a freshly created
card has both links hidden. -/
theorem C10_update_visibility_rule (n m : NowPlayingCard) (track artist album : String)
    (cover : Option Nat) :
    (n.Update track artist album cover).trackName.Text = track ∧
    (n.Update track artist album cover).artistName.Text = artist ∧
    ((n.Update track artist album cover).artistName.Hidden = true ↔ artist = "") ∧
    (n.Update track artist album cover).albumName.Text = album ∧
    ((n.Update track artist album cover).albumName.Hidden = true ↔ album = "") ∧
    (n.Update track artist album cover).cover.Image = cover ∧
    ((n.Update track artist album cover).trackName.Text
        = (m.Update track artist album cover).trackName.Text ∧
      (n.Update track artist album cover).artistName.Text
        = (m.Update track artist album cover).artistName.Text ∧
      (n.Update track artist album cover).artistName.Hidden
        = (m.Update track artist album cover).artistName.Hidden ∧
      (n.Update track artist album cover).albumName.Text
        = (m.Update track artist album cover).albumName.Text ∧
      (n.Update track artist album cover).albumName.Hidden
        = (m.Update track artist album cover).albumName.Hidden ∧
      (n.Update track artist album cover).cover.Image
        = (m.Update track artist album cover).cover.Image) ∧
    NewNowPlayingCard.artistName.Hidden = true ∧
    NewNowPlayingCard.albumName.Hidden = true := by
  simp [NowPlayingCard.Update, CustomHyperlink.SetText, NewNowPlayingCard, NewCustomHyperlink]

end Supersonic
